import Mathlib

set_option linter.unusedVariables false

/-
Verification of the pagination and query-aggregation layer of a Python
client library for a SIEM REST API (sumologiccse.py).  The definitions
below are shallow embeddings of the corresponding Python functions; the
theorems settle the specified properties about them.
-/

namespace SumoCSE

/-- Error taxonomy of the client library: the exception classes
AuthenticationError, APIError (carrying a status code and the raw response
text), ConfigurationError and DataError. -/
inductive CseError where
  | authenticationError (message : String)
  | apiError (message : String) (statusCode : Option Int) (responseText : Option String)
  | configurationError (message : String)
  | dataError (message : String)
deriving DecidableEq, Repr

/-- An error escaping a library call: one of the library exception
classes, a bare json.JSONDecodeError raised by an uncaught json.loads
call, or a bare TypeError raised by the message-extraction code of
_handle_response on a non-dict JSON error body (neither except clause
there catches TypeError). -/
inductive PyError where
  | cse (e : CseError)
  | jsonDecodeError
  | typeError
deriving DecidableEq, Repr

/-- A minimal model of a parsed JSON value. -/
inductive Json where
  | null : Json
  | bool (b : Bool) : Json
  | num (n : Int) : Json
  | str (s : String) : Json
  | arr (elems : List Json) : Json
  | obj (fields : List (String × Json)) : Json

/-- Models the Python str() rendering used when a JSON field value is
interpolated into an error message.  The rendering of composite values is
abstracted to a fixed placeholder; no claim depends on it. -/
def jsonToText : Json → String
  | .str s => s
  | .num n => toString n
  | .bool b => if b then "True" else "False"
  | .null => "None"
  | .arr _ => "<list>"
  | .obj _ => "<dict>"

/-- Whether the character list sub occurs contiguously inside the second
character list. -/
def charListContains (sub : List Char) : List Char → Bool
  | [] => List.isPrefixOf sub []
  | c :: rest => List.isPrefixOf sub (c :: rest) || charListContains sub rest

/-- Embedding of the Python substring test `sub in s` on strings, on the
character lists underlying the strings. -/
def strContains (sub s : String) : Bool :=
  charListContains sub.data s.data

/-- Python equality between a string key and a JSON value, as used by the
membership test `key in error_data` when error_data is a list: a string
compares equal only to an equal string, and to no value of another
type. -/
def jsonEqStr (key : String) : Json → Bool
  | .str s => s == key
  | _ => false

/-- The message-extraction block of _handle_response for a body that
parsed to the JSON value errorData, following Python semantics of
`"message" in error_data` and `error_data["message"]` per value type:
for a dict, key membership and lookup; for None, a number or a boolean,
the membership test itself raises TypeError; for a string, membership is
a substring test and a hit makes the subscript raise TypeError; for a
list, membership is element equality and a hit makes the subscript raise
TypeError.  The surrounding try catches only ValueError and
JSONDecodeError, so a raised TypeError (modelled as none) escapes
_handle_response. -/
def error_msg_probe (fallbackMsg : String) : Json → Option String
  | .obj fields =>
    match fields.lookup "message" with
    | some v => some ("API error: " ++ jsonToText v)
    | none =>
      match fields.lookup "error" with
      | some v => some ("API error: " ++ jsonToText v)
      | none => some fallbackMsg
  | .null => none
  | .bool _ => none
  | .num _ => none
  | .str s =>
    if strContains "message" s then none
    else if strContains "error" s then none
    else some fallbackMsg
  | .arr elems =>
    if elems.any (jsonEqStr "message") then none
    else if elems.any (jsonEqStr "error") then none
    else some fallbackMsg

/-- An HTTP response as seen by the response handler: status code and raw
body text.  The JSON (de)serialization primitive is passed in explicitly as
a function jparse modelling json.loads (returning none when the text is not
valid JSON). -/
structure HttpResponse where
  status : Int
  text : String
deriving DecidableEq, Repr

/-- Embedding of Python str.endswith, on the character lists underlying
the strings. -/
def strEndsWith (s suffix : String) : Bool :=
  List.isSuffixOf suffix.data s.data

/-- Embedding of Python str.startswith, on the character lists underlying
the strings. -/
def strStartsWith (s pre : String) : Bool :=
  List.isPrefixOf pre.data s.data

instance instDecEqExcept {ε α : Type} [DecidableEq ε] [DecidableEq α] :
    DecidableEq (Except ε α) := fun a b =>
  match a, b with
  | .ok x, .ok y =>
    if h : x = y then isTrue (h ▸ rfl) else isFalse (fun hh => h (Except.ok.inj hh))
  | .error x, .error y =>
    if h : x = y then isTrue (h ▸ rfl) else isFalse (fun hh => h (Except.error.inj hh))
  | .ok _, .error _ => isFalse (fun hh => Except.noConfusion hh)
  | .error _, .ok _ => isFalse (fun hh => Except.noConfusion hh)

/-- Embedding of SumoLogicCSE._validate_endpoint.  The Python regexes
are anchored with both a caret and a dollar, so they are exact string
matches on the short region codes. -/
def validate_endpoint (endpoint : Option String) : Except CseError String :=
  let ep : String :=
    match endpoint with
    | none => "https://api.sumologic.com/api/sec"
    | some e =>
      if e = "au" ∨ e = "fra" ∨ e = "mum" ∨ e = "us2" ∨ e = "mon" ∨ e = "dub" ∨ e = "tky" then
        "https://api." ++ e ++ ".sumologic.com/api/sec"
      else if e = "prod" ∨ e = "us1" then
        "https://api.sumologic.com/api/sec"
      else e
  if strEndsWith ep "/" then
    .error (.configurationError "Endpoint should not end with a slash character")
  else if ¬ (strStartsWith ep "https://" = true ∨ strStartsWith ep "http://" = true) then
    .error (.configurationError "Endpoint must be a valid HTTP/HTTPS URL")
  else .ok ep

/-- Embedding of SumoLogicCSE._handle_response.  jparse models
response.json(); method is the description string interpolated into the
fallback error message.  A 401 raises AuthenticationError; a 403 raises
APIError with status code and raw body; any other status in [400,600)
builds an error message — from a message or error field when the body
parses to a dict, falling back to the first 200 characters of the raw
text when the body does not parse — and raises APIError with status code
and raw body; except that when the body parses to a non-dict JSON value
on which the message probing raises TypeError (see error_msg_probe), the
TypeError escapes uncaught, since the try there catches only ValueError
and JSONDecodeError and the outer handler only RequestException. -/
def handle_response (jparse : String → Option Json) (response : HttpResponse)
    (method : String) : Except PyError HttpResponse :=
  if response.status = 401 then
    .error (.cse (.authenticationError "Authentication failed. Check your access ID and key."))
  else if response.status = 403 then
    .error (.cse (.apiError "Access denied. Check your permissions."
      (some response.status) (some response.text)))
  else if 400 ≤ response.status ∧ response.status < 600 then
    let fallbackMsg := "API request failed: " ++ method
    match jparse response.text with
    | some errorData =>
      match error_msg_probe fallbackMsg errorData with
      | some errorMsg =>
        .error (.cse (.apiError errorMsg (some response.status) (some response.text)))
      | none => .error .typeError
    | none =>
      let errorMsg :=
        if response.text ≠ "" then "API error: " ++ response.text.take 200
        else fallbackMsg
      .error (.cse (.apiError errorMsg (some response.status) (some response.text)))
  else .ok response

/-- Embedding of SumoLogicCSE._safe_json_parse: an empty body yields the
empty mapping, a valid JSON body yields its parse, and a non-empty body
that does not parse raises DataError. -/
def safe_json_parse (jparse : String → Option Json) (text : String) : Except CseError Json :=
  if text = "" then .ok (Json.obj [])
  else
    match jparse text with
    | some d => .ok d
    | none => .error (.dataError "Invalid JSON response from API")

/-- Embedding of a bare json.loads(response.text) call as used by
get_insights_list, get_rules and get_insight: a body that does not parse
(including the empty body, which is not valid JSON) raises
json.JSONDecodeError, which is not one of the library exception classes. -/
def json_loads (jparse : String → Option Json) (text : String) : Except PyError Json :=
  match jparse text with
  | some d => .ok d
  | none => .error .jsonDecodeError

/-- Result of get_insights_all for a given raw HTTP response: the response
goes through _handle_response and then _safe_json_parse. -/
def get_insights_all_result (jparse : String → Option Json) (r : HttpResponse) :
    Except PyError Json :=
  match handle_response jparse r "GET /insights/all" with
  | .error e => .error e
  | .ok resp =>
    match safe_json_parse jparse resp.text with
    | .error e => .error (.cse e)
    | .ok d => .ok d

/-- Result of get_insights_list for a given raw HTTP response: the response
goes through _handle_response and then a bare json.loads. -/
def get_insights_list_result (jparse : String → Option Json) (r : HttpResponse) :
    Except PyError Json :=
  match handle_response jparse r "GET /insights" with
  | .error e => .error e
  | .ok resp => json_loads jparse resp.text

/-- Result of get_rules for a given raw HTTP response: _handle_response
followed by a bare json.loads. -/
def get_rules_result (jparse : String → Option Json) (r : HttpResponse) :
    Except PyError Json :=
  match handle_response jparse r "GET /rules" with
  | .error e => .error e
  | .ok resp => json_loads jparse resp.text

/-- Result of get_insight for a given raw HTTP response: _handle_response
followed by a bare json.loads. -/
def get_insight_result (jparse : String → Option Json) (insightId : String)
    (r : HttpResponse) : Except PyError Json :=
  match handle_response jparse r ("GET /insights/" ++ insightId) with
  | .error e => .error e
  | .ok resp => json_loads jparse resp.text

/-- A concrete instance of the JSON parsing primitive, agreeing with
standard JSON on the inputs used in concrete evaluations below: the empty
string and the text `not json` are not valid JSON, while a few fixed
well-formed documents — among them the body null — parse to the indicated
values. -/
def demoParse : String → Option Json := fun s =>
  if s = "\x7b\x7d" then some (.obj [])
  else if s = "[]" then some (.arr [])
  else if s = "\x7b\x22message\x22:\x22denied\x22\x7d" then
    some (.obj [("message", .str "denied")])
  else if s = "null" then some .null
  else none

/-- One page of an offset/limit paginated list response, modelling the
`data` object of the JSON body returned by get_insights_list and
get_rules: the `objects` list and the `hasNextPage` flag. -/
structure Page (α : Type) where
  objects : List α
  hasNextPage : Bool
deriving DecidableEq, Repr

/-- One page of a token-cursor paginated list response, modelling the
`data` object of the JSON body returned by get_insights_all: the `objects`
list and the nullable `nextPageToken`. -/
structure TokenPage (α : Type) where
  objects : List α
  nextPageToken : Option String
deriving DecidableEq, Repr

/-- The while-loop of query_insights.  The page source src models the
partially applied fetcher fun offset limit => get_insights_list q offset
limit, with the query q fixed; pages, batchsize and remaining are the
Python loop variables (arbitrary-precision integers).  The second
component of the result records the (offset, limit) arguments of each
get_insights_list call, in order; the first component is the accumulated
insights list exactly as the Python code builds it.  The loop is written
with an explicit fuel counter; since each iteration either strictly
decreases remaining or sets it to zero, any fuel of at least
remaining.toNat computes the loop exactly (see
query_insights_go_fuel_ge). -/
def query_insights_go (src : Int → Int → Page α) :
    Nat → Int → Int → Int → List α × List (Int × Int)
  | 0, _, _, _ => ([], [])
  | fuel + 1, pages, batchsize, remaining =>
    if remaining > 0 then
      let i := src pages batchsize
      let remaining' : Int :=
        if i.objects.length > 0 then remaining - (i.objects.length : Int) else 0
      if i.hasNextPage = false then
        (i.objects, [(pages, batchsize)])
      else
        let rest := query_insights_go src fuel (pages + batchsize)
          (if remaining' > 20 then 20 else remaining') remaining'
        (i.objects ++ rest.1, (pages, batchsize) :: rest.2)
    else ([], [])

/-- Embedding of query_insights: the caller-supplied offset parameter is
accepted but, as in the source, never used; the internal offset (the
Python variable pages) starts at 0 and the initial batch size is
`20 if limit > 20 else limit`. -/
def query_insights (src : Int → Int → Page α) (offset limit : Int) : List α :=
  (query_insights_go src limit.toNat 0 (if limit > 20 then 20 else limit) limit).1

/-- The sequence of (offset, limit) arguments of the get_insights_list
calls issued by query_insights. -/
def query_insights_calls (src : Int → Int → Page α) (offset limit : Int) :
    List (Int × Int) :=
  (query_insights_go src limit.toNat 0 (if limit > 20 then 20 else limit) limit).2

/-- The while-loop of query_rules, which differs from query_insights only
in the spelling of the batch-size updates: the initial batch size is
`min(limit, 20) if limit > 20 else limit` and the in-loop update is
`min(20, remaining)`. -/
def query_rules_go (src : Int → Int → Page α) :
    Nat → Int → Int → Int → List α × List (Int × Int)
  | 0, _, _, _ => ([], [])
  | fuel + 1, pages, batchsize, remaining =>
    if remaining > 0 then
      let r := src pages batchsize
      let remaining' : Int :=
        if r.objects.length > 0 then remaining - (r.objects.length : Int) else 0
      if r.hasNextPage = false then
        (r.objects, [(pages, batchsize)])
      else
        let rest := query_rules_go src fuel (pages + batchsize)
          (min 20 remaining') remaining'
        (r.objects ++ rest.1, (pages, batchsize) :: rest.2)
    else ([], [])

/-- Embedding of query_rules; the caller-supplied offset parameter is
accepted but never used. -/
def query_rules (src : Int → Int → Page α) (offset limit : Int) : List α :=
  (query_rules_go src limit.toNat 0
    (if limit > 20 then min limit 20 else limit) limit).1

/-- The sequence of (offset, limit) arguments of the get_rules calls
issued by query_rules. -/
def query_rules_calls (src : Int → Int → Page α) (offset limit : Int) :
    List (Int × Int) :=
  (query_rules_go src limit.toNat 0
    (if limit > 20 then min limit 20 else limit) limit).2

/-- The while-loop of get_insights.  src models the partially applied
fetcher fun token => get_insights_all q token with the query fixed; the
loop counter pages runs while pages < max_pages, and the loop breaks as
soon as a page carries a null nextPageToken.  The second component counts
the get_insights_all calls made.  Fuel of at least
(maxPages - pages).toNat computes the loop exactly (see
get_insights_go_fuel_ge). -/
def get_insights_go (src : Option String → TokenPage α) :
    Nat → Int → Int → Option String → List α × Nat
  | 0, _, _, _ => ([], 0)
  | fuel + 1, maxPages, pages, nextPageToken =>
    if pages < maxPages then
      let i := src nextPageToken
      match i.nextPageToken with
      | none => (i.objects, 1)
      | some t =>
        let rest := get_insights_go src fuel maxPages (pages + 1) (some t)
        (i.objects ++ rest.1, 1 + rest.2)
    else ([], 0)

/-- Embedding of get_insights: accumulated insights over the token-cursor
walk, with at most maxPages fetches. -/
def get_insights (src : Option String → TokenPage α) (maxPages : Int) : List α :=
  (get_insights_go src maxPages.toNat maxPages 0 none).1

/-- The number of get_insights_all calls issued by get_insights. -/
def get_insights_fetches (src : Option String → TokenPage α) (maxPages : Int) : Nat :=
  (get_insights_go src maxPages.toNat maxPages 0 none).2

/-- The while-loop of get_insights over a fallible page source: a fetch
may raise a library error (for instance an APIError produced by
_handle_response), in which case the loop body re-raises it and the whole
aggregation fails, discarding any accumulated records.  There is no
exception handler inside the loop in the source. -/
def get_insightsE_go (src : Option String → Except CseError (TokenPage α)) :
    Nat → Int → Int → Option String → Except CseError (List α × Nat)
  | 0, _, _, _ => .ok ([], 0)
  | fuel + 1, maxPages, pages, nextPageToken =>
    if pages < maxPages then
      match src nextPageToken with
      | .error e => .error e
      | .ok i =>
        match i.nextPageToken with
        | none => .ok (i.objects, 1)
        | some t =>
          match get_insightsE_go src fuel maxPages (pages + 1) (some t) with
          | .error e => .error e
          | .ok rest => .ok (i.objects ++ rest.1, 1 + rest.2)
    else .ok ([], 0)

/-- get_insights over a fallible page source. -/
def get_insightsE (src : Option String → Except CseError (TokenPage α))
    (maxPages : Int) : Except CseError (List α) :=
  match get_insightsE_go src maxPages.toNat maxPages 0 none with
  | .error e => .error e
  | .ok r => .ok r.1

/-- The while-loop of query_insights over a fallible page source; as in
the source there is no exception handler inside the loop, so a failing
fetch aborts the whole aggregation. -/
def query_insightsE_go (src : Int → Int → Except CseError (Page α)) :
    Nat → Int → Int → Int → Except CseError (List α × List (Int × Int))
  | 0, _, _, _ => .ok ([], [])
  | fuel + 1, pages, batchsize, remaining =>
    if remaining > 0 then
      match src pages batchsize with
      | .error e => .error e
      | .ok i =>
        let remaining' : Int :=
          if i.objects.length > 0 then remaining - (i.objects.length : Int) else 0
        if i.hasNextPage = false then
          .ok (i.objects, [(pages, batchsize)])
        else
          match query_insightsE_go src fuel (pages + batchsize)
            (if remaining' > 20 then 20 else remaining') remaining' with
          | .error e => .error e
          | .ok rest => .ok (i.objects ++ rest.1, (pages, batchsize) :: rest.2)
    else .ok ([], [])

/-- query_insights over a fallible page source. -/
def query_insightsE (src : Int → Int → Except CseError (Page α))
    (offset limit : Int) : Except CseError (List α) :=
  match query_insightsE_go src limit.toNat 0
    (if limit > 20 then 20 else limit) limit with
  | .error e => .error e
  | .ok r => .ok r.1

/-- Offset-chaining of a fetch trace: every fetch after the first is made
at the offset of the fetch before it plus the batch size that was
requested on that fetch. -/
def callsChainedB : List (Int × Int) → Bool
  | [] => true
  | [_] => true
  | (o₁, b₁) :: (o₂, b₂) :: rest =>
    (o₂ == o₁ + b₁) && callsChainedB ((o₂, b₂) :: rest)

/-- A page source that always returns exactly the requested number of
records, tagged by absolute position, and always reports a next page. -/
def fullSrc : Int → Int → Page Int :=
  fun o b => ⟨(List.range b.toNat).map (fun k => o + Int.ofNat k), true⟩

/-- A token-cursor page source whose successive responses carry the
next-page tokens A, B, null, with two records per page. -/
def tokSrc3 : Option String → TokenPage Int := fun t =>
  match t with
  | none => ⟨[1, 2], some "A"⟩
  | some "A" => ⟨[3, 4], some "B"⟩
  | some "B" => ⟨[5, 6], none⟩
  | some _ => ⟨[], none⟩

/-- A token-cursor page source that never returns a null token and whose
pages carry zero records. -/
def neverNullSrc : Option String → TokenPage Int := fun _ => ⟨[], some "X"⟩

/-- A concrete APIError carrying HTTP status 500, as produced by
_handle_response for a failing page fetch. -/
def err500 : CseError := .apiError "API error: boom" (some 500) (some "boom")

/-- A fallible token-cursor page source whose first fetch succeeds with a
continuation token and whose second fetch raises an APIError with status
500. -/
def failTokSrc : Option String → Except CseError (TokenPage Int) := fun t =>
  match t with
  | none => .ok ⟨[1, 2], some "A"⟩
  | some _ => .error err500

/-- A fallible offset page source whose fetch at offset 0 succeeds with
one record and a next-page flag, and whose fetch at any other offset
raises an APIError with status 500. -/
def failOffSrc : Int → Int → Except CseError (Page Int) := fun o b =>
  if o = 0 then .ok ⟨[1], true⟩ else .error err500

/-
Helper lemmas about the loop embeddings.
-/

/-- A non-positive remaining budget makes the offset loop of
query_insights exit immediately, for any fuel. -/
lemma query_insights_go_nonpos {α : Type} (src : Int → Int → Page α) (fuel : Nat)
    (p b r : Int) (hr : ¬ r > 0) :
    query_insights_go src fuel p b r = ([], []) := by
  cases fuel with
  | zero => rfl
  | succ n => simp only [query_insights_go, if_neg hr]

/-- One iteration of the query_insights loop against a page that is full
(20 records) and reports a next page, while at least 40 records remain
requested: the loop advances the offset by the requested batch size and
keeps the batch size at 20. -/
lemma query_insights_go_full_step {α : Type} (src : Int → Int → Page α) (fuel : Nat)
    (p r : Int) (hlen : (src p 20).objects.length = 20)
    (hnext : (src p 20).hasNextPage = true) (hr : 40 ≤ r) :
    query_insights_go src (fuel + 1) p 20 r =
      ((src p 20).objects ++ (query_insights_go src fuel (p + 20) 20 (r - 20)).1,
        (p, 20) :: (query_insights_go src fuel (p + 20) 20 (r - 20)).2) := by
  have hr0 : r > 0 := by omega
  simp only [query_insights_go, if_pos hr0, hlen, hnext]
  norm_num
  have hb : (if 20 < r - 20 then (20 : Int) else r - 20) = 20 := by
    split <;> omega
  rw [hb]
  exact ⟨rfl, rfl⟩

/-- The final iteration of the query_insights loop against a full page
when exactly 20 records remain requested: the remaining budget drops to
zero and the loop exits even though the server reports a next page. -/
lemma query_insights_go_full_finish {α : Type} (src : Int → Int → Page α) (fuel : Nat)
    (p : Int) (hlen : (src p 20).objects.length = 20)
    (hnext : (src p 20).hasNextPage = true) :
    query_insights_go src (fuel + 1) p 20 20 = ((src p 20).objects, [(p, 20)]) := by
  simp only [query_insights_go, if_pos (by norm_num : (20 : Int) > 0), hlen, hnext]
  norm_num
  rw [query_insights_go_nonpos src fuel (p + 20) 0 0 (by norm_num)]
  exact ⟨rfl, rfl⟩

/-- The fetch trace of the query_insights loop is either empty or starts
with the (offset, batchsize) pair the loop was entered with. -/
lemma query_insights_go_calls_head {α : Type} (src : Int → Int → Page α) (fuel : Nat)
    (p b r : Int) :
    (query_insights_go src fuel p b r).2 = [] ∨
      ∃ tl, (query_insights_go src fuel p b r).2 = (p, b) :: tl := by
  cases fuel with
  | zero => exact .inl rfl
  | succ n =>
    by_cases hr : r > 0
    · simp only [query_insights_go, if_pos hr]
      by_cases hn : (src p b).hasNextPage = false
      · rw [if_pos hn]
        exact .inr ⟨[], rfl⟩
      · rw [if_neg hn]
        exact .inr ⟨_, rfl⟩
    · rw [query_insights_go_nonpos src _ p b r hr]
      exact .inl rfl

/-- Offsets chain in every fetch trace of the query_insights loop: each
fetch after the first is made at the previous offset plus the previously
requested batch size. -/
lemma query_insights_go_chained {α : Type} (src : Int → Int → Page α) :
    ∀ (fuel : Nat) (p b r : Int),
      callsChainedB (query_insights_go src fuel p b r).2 = true := by
  intro fuel
  induction fuel with
  | zero => intro p b r; rfl
  | succ n ih =>
    intro p b r
    by_cases hr : r > 0
    · simp only [query_insights_go, if_pos hr]
      by_cases hn : (src p b).hasNextPage = false
      · rw [if_pos hn]
        rfl
      · rw [if_neg hn]
        rcases query_insights_go_calls_head src n (p + b)
            (if (if (src p b).objects.length > 0
                then r - ((src p b).objects.length : Int) else 0) > 20
              then (20 : Int)
              else (if (src p b).objects.length > 0
                then r - ((src p b).objects.length : Int) else 0))
            (if (src p b).objects.length > 0
              then r - ((src p b).objects.length : Int) else 0) with h | ⟨tl, h⟩
        · rw [h]
          rfl
        · rw [h]
          simp only [callsChainedB, beq_self_eq_true, Bool.true_and]
          have := ih (p + b)
            (if (if (src p b).objects.length > 0
                then r - ((src p b).objects.length : Int) else 0) > 20
              then (20 : Int)
              else (if (src p b).objects.length > 0
                then r - ((src p b).objects.length : Int) else 0))
            (if (src p b).objects.length > 0
              then r - ((src p b).objects.length : Int) else 0)
          rw [h] at this
          exact this
    · rw [query_insights_go_nonpos src _ p b r hr]
      rfl

/-- Every batch size in the fetch trace of the query_insights loop is at
most 20, provided the loop is entered with a batch size of at most 20. -/
lemma query_insights_go_batch_le {α : Type} (src : Int → Int → Page α) :
    ∀ (fuel : Nat) (p b r : Int), b ≤ 20 →
      ∀ c ∈ (query_insights_go src fuel p b r).2, c.2 ≤ 20 := by
  intro fuel
  induction fuel with
  | zero =>
    intro p b r hb c hc
    exact absurd hc (by simp [query_insights_go])
  | succ n ih =>
    intro p b r hb c hc
    by_cases hr : r > 0
    · simp only [query_insights_go, if_pos hr] at hc
      by_cases hn : (src p b).hasNextPage = false
      · rw [if_pos hn] at hc
        simp only [List.mem_singleton] at hc
        rw [hc]
        exact hb
      · rw [if_neg hn] at hc
        simp only [List.mem_cons] at hc
        rcases hc with rfl | hc
        · exact hb
        · exact ih _ _ _ (by split <;> omega) c hc
    · rw [query_insights_go_nonpos src _ p b r hr] at hc
      exact absurd hc (by simp)

/-- A non-positive remaining budget makes the offset loop of query_rules
exit immediately, for any fuel. -/
lemma query_rules_go_nonpos {α : Type} (src : Int → Int → Page α) (fuel : Nat)
    (p b r : Int) (hr : ¬ r > 0) :
    query_rules_go src fuel p b r = ([], []) := by
  cases fuel with
  | zero => rfl
  | succ n => simp only [query_rules_go, if_neg hr]

/-- The fetch trace of the query_rules loop is either empty or starts
with the (offset, batchsize) pair the loop was entered with. -/
lemma query_rules_go_calls_head {α : Type} (src : Int → Int → Page α) (fuel : Nat)
    (p b r : Int) :
    (query_rules_go src fuel p b r).2 = [] ∨
      ∃ tl, (query_rules_go src fuel p b r).2 = (p, b) :: tl := by
  cases fuel with
  | zero => exact .inl rfl
  | succ n =>
    by_cases hr : r > 0
    · simp only [query_rules_go, if_pos hr]
      by_cases hn : (src p b).hasNextPage = false
      · rw [if_pos hn]
        exact .inr ⟨[], rfl⟩
      · rw [if_neg hn]
        exact .inr ⟨_, rfl⟩
    · rw [query_rules_go_nonpos src _ p b r hr]
      exact .inl rfl

/-- Offsets chain in every fetch trace of the query_rules loop. -/
lemma query_rules_go_chained {α : Type} (src : Int → Int → Page α) :
    ∀ (fuel : Nat) (p b r : Int),
      callsChainedB (query_rules_go src fuel p b r).2 = true := by
  intro fuel
  induction fuel with
  | zero => intro p b r; rfl
  | succ n ih =>
    intro p b r
    by_cases hr : r > 0
    · simp only [query_rules_go, if_pos hr]
      by_cases hn : (src p b).hasNextPage = false
      · rw [if_pos hn]
        rfl
      · rw [if_neg hn]
        rcases query_rules_go_calls_head src n (p + b)
            (min 20 (if (src p b).objects.length > 0
              then r - ((src p b).objects.length : Int) else 0))
            (if (src p b).objects.length > 0
              then r - ((src p b).objects.length : Int) else 0) with h | ⟨tl, h⟩
        · rw [h]
          rfl
        · rw [h]
          simp only [callsChainedB, beq_self_eq_true, Bool.true_and]
          have := ih (p + b)
            (min 20 (if (src p b).objects.length > 0
              then r - ((src p b).objects.length : Int) else 0))
            (if (src p b).objects.length > 0
              then r - ((src p b).objects.length : Int) else 0)
          rw [h] at this
          exact this
    · rw [query_rules_go_nonpos src _ p b r hr]
      rfl

/-- Every batch size in the fetch trace of the query_rules loop is at
most 20, provided the loop is entered with a batch size of at most 20. -/
lemma query_rules_go_batch_le {α : Type} (src : Int → Int → Page α) :
    ∀ (fuel : Nat) (p b r : Int), b ≤ 20 →
      ∀ c ∈ (query_rules_go src fuel p b r).2, c.2 ≤ 20 := by
  intro fuel
  induction fuel with
  | zero =>
    intro p b r hb c hc
    exact absurd hc (by simp [query_rules_go])
  | succ n ih =>
    intro p b r hb c hc
    by_cases hr : r > 0
    · simp only [query_rules_go, if_pos hr] at hc
      by_cases hn : (src p b).hasNextPage = false
      · rw [if_pos hn] at hc
        simp only [List.mem_singleton] at hc
        rw [hc]
        exact hb
      · rw [if_neg hn] at hc
        simp only [List.mem_cons] at hc
        rcases hc with rfl | hc
        · exact hb
        · exact ih _ _ _ (min_le_left _ _) c hc
    · rw [query_rules_go_nonpos src _ p b r hr] at hc
      exact absurd hc (by simp)

/-- Against a page source that always returns exactly the requested
number of records with a next-page flag, query_insights with totalLimit
10 makes exactly one fetch, at offset 0 with batch size 10. -/
lemma query_insights_run10 {α : Type} (src : Int → Int → Page α) (off : Int)
    (hfull : ∀ o b : Int, (src o b).objects.length = b.toNat ∧ (src o b).hasNextPage = true) :
    query_insights_calls src off 10 = [(0, 10)] := by
  have hl : (src 0 10).objects.length = 10 := by simpa using (hfull 0 10).1
  have hn : (src 0 10).hasNextPage = true := (hfull 0 10).2
  rw [query_insights_calls, show ((10 : Int)).toNat = 9 + 1 from rfl,
    show (if (10 : Int) > 20 then (20 : Int) else 10) = 10 by norm_num]
  rw [query_insights_go]
  rw [if_pos (by norm_num : (10 : Int) > 0)]
  simp only [hl, hn]
  norm_num
  rw [query_insights_go_nonpos src 9 10 0 0 (by norm_num)]

/-- Against a page source that always returns exactly the requested
number of records with a next-page flag, query_rules with totalLimit 10
makes exactly one fetch, at offset 0 with batch size 10. -/
lemma query_rules_run10 {α : Type} (src : Int → Int → Page α) (off : Int)
    (hfull : ∀ o b : Int, (src o b).objects.length = b.toNat ∧ (src o b).hasNextPage = true) :
    query_rules_calls src off 10 = [(0, 10)] := by
  have hl : (src 0 10).objects.length = 10 := by simpa using (hfull 0 10).1
  have hn : (src 0 10).hasNextPage = true := (hfull 0 10).2
  rw [query_rules_calls, show ((10 : Int)).toNat = 9 + 1 from rfl,
    show (if (10 : Int) > 20 then min (10 : Int) 20 else 10) = 10 by norm_num]
  rw [query_rules_go]
  rw [if_pos (by norm_num : (10 : Int) > 0)]
  simp only [hl, hn]
  norm_num
  rw [query_rules_go_nonpos src 9 10 0 0 (by norm_num)]

/-- Adding one unit of fuel beyond r.toNat does not change the
query_insights loop: the fuel used by the wrappers is adequate. -/
lemma query_insights_go_fuel_succ {α : Type} (src : Int → Int → Page α) :
    ∀ (fuel : Nat) (p b r : Int), r.toNat ≤ fuel →
      query_insights_go src (fuel + 1) p b r = query_insights_go src fuel p b r := by
  intro fuel
  induction fuel with
  | zero =>
    intro p b r hf
    rw [query_insights_go_nonpos src 1 p b r (by omega),
      query_insights_go_nonpos src 0 p b r (by omega)]
  | succ n ih =>
    intro p b r hf
    by_cases hr : r > 0
    · conv_lhs => rw [query_insights_go]
      conv_rhs => rw [query_insights_go]
      simp only [if_pos hr]
      by_cases hn : (src p b).hasNextPage = false
      · rw [if_pos hn, if_pos hn]
      · rw [if_neg hn, if_neg hn]
        rw [ih (p + b)]
        by_cases hL : (src p b).objects.length > 0
        · rw [if_pos hL]
          omega
        · rw [if_neg hL]
          omega
    · rw [query_insights_go_nonpos src _ p b r hr, query_insights_go_nonpos src _ p b r hr]

/-- Any fuel of at least r.toNat computes the query_insights loop
exactly. -/
lemma query_insights_go_fuel_ge {α : Type} (src : Int → Int → Page α) :
    ∀ (k fuel : Nat) (p b r : Int), r.toNat ≤ fuel →
      query_insights_go src (fuel + k) p b r = query_insights_go src fuel p b r := by
  intro k
  induction k with
  | zero => intro fuel p b r hf; rfl
  | succ m ih =>
    intro fuel p b r hf
    rw [show fuel + (m + 1) = (fuel + m) + 1 from rfl,
      query_insights_go_fuel_succ src (fuel + m) p b r (by omega), ih fuel p b r hf]

/-- Adding one unit of fuel beyond r.toNat does not change the
query_rules loop. -/
lemma query_rules_go_fuel_succ {α : Type} (src : Int → Int → Page α) :
    ∀ (fuel : Nat) (p b r : Int), r.toNat ≤ fuel →
      query_rules_go src (fuel + 1) p b r = query_rules_go src fuel p b r := by
  intro fuel
  induction fuel with
  | zero =>
    intro p b r hf
    rw [query_rules_go_nonpos src 1 p b r (by omega),
      query_rules_go_nonpos src 0 p b r (by omega)]
  | succ n ih =>
    intro p b r hf
    by_cases hr : r > 0
    · conv_lhs => rw [query_rules_go]
      conv_rhs => rw [query_rules_go]
      simp only [if_pos hr]
      by_cases hn : (src p b).hasNextPage = false
      · rw [if_pos hn, if_pos hn]
      · rw [if_neg hn, if_neg hn]
        rw [ih (p + b)]
        by_cases hL : (src p b).objects.length > 0
        · rw [if_pos hL]
          omega
        · rw [if_neg hL]
          omega
    · rw [query_rules_go_nonpos src _ p b r hr, query_rules_go_nonpos src _ p b r hr]

/-- Any fuel of at least r.toNat computes the query_rules loop exactly. -/
lemma query_rules_go_fuel_ge {α : Type} (src : Int → Int → Page α) :
    ∀ (k fuel : Nat) (p b r : Int), r.toNat ≤ fuel →
      query_rules_go src (fuel + k) p b r = query_rules_go src fuel p b r := by
  intro k
  induction k with
  | zero => intro fuel p b r hf; rfl
  | succ m ih =>
    intro fuel p b r hf
    rw [show fuel + (m + 1) = (fuel + m) + 1 from rfl,
      query_rules_go_fuel_succ src (fuel + m) p b r (by omega), ih fuel p b r hf]

/-- Adding one unit of fuel beyond (maxPages - pages).toNat does not
change the get_insights loop. -/
lemma get_insights_go_fuel_succ {α : Type} (src : Option String → TokenPage α) :
    ∀ (fuel : Nat) (maxPages pages : Int) (tok : Option String),
      (maxPages - pages).toNat ≤ fuel →
      get_insights_go src (fuel + 1) maxPages pages tok =
        get_insights_go src fuel maxPages pages tok := by
  intro fuel
  induction fuel with
  | zero =>
    intro maxPages pages tok hf
    have h : ¬ pages < maxPages := by omega
    show (if pages < maxPages then _ else ([], 0)) = ([], 0)
    rw [if_neg h]
  | succ n ih =>
    intro maxPages pages tok hf
    by_cases h : pages < maxPages
    · conv_lhs => rw [get_insights_go]
      conv_rhs => rw [get_insights_go]
      simp only [if_pos h]
      cases htok : (src tok).nextPageToken with
      | none => rfl
      | some t =>
        simp only []
        rw [ih maxPages (pages + 1) (some t) (by omega)]
    · conv_lhs => rw [get_insights_go]
      conv_rhs => rw [get_insights_go]
      rw [if_neg h, if_neg h]

/-- Any fuel of at least (maxPages - pages).toNat computes the
get_insights loop exactly. -/
lemma get_insights_go_fuel_ge {α : Type} (src : Option String → TokenPage α) :
    ∀ (k fuel : Nat) (maxPages pages : Int) (tok : Option String),
      (maxPages - pages).toNat ≤ fuel →
      get_insights_go src (fuel + k) maxPages pages tok =
        get_insights_go src fuel maxPages pages tok := by
  intro k
  induction k with
  | zero => intro fuel maxPages pages tok hf; rfl
  | succ m ih =>
    intro fuel maxPages pages tok hf
    rw [show fuel + (m + 1) = (fuel + m) + 1 from rfl,
      get_insights_go_fuel_succ src (fuel + m) maxPages pages tok (by omega),
      ih fuel maxPages pages tok hf]

/-- Over an infallible page source the fallible get_insights loop agrees
with the pure one: the two embeddings describe the same source loop. -/
lemma get_insightsE_go_ok {α : Type} (src : Option String → TokenPage α) :
    ∀ (fuel : Nat) (maxPages pages : Int) (tok : Option String),
      get_insightsE_go (fun t => .ok (src t)) fuel maxPages pages tok =
        .ok (get_insights_go src fuel maxPages pages tok) := by
  intro fuel
  induction fuel with
  | zero => intro mp p t; rfl
  | succ n ih =>
    intro mp p t
    by_cases h : p < mp
    · conv_lhs => rw [get_insightsE_go]
      conv_rhs => rw [get_insights_go]
      simp only [if_pos h]
      cases htok : (src t).nextPageToken with
      | none => simp only [htok]
      | some tk =>
        simp only [htok]
        rw [ih mp (p + 1) (some tk)]
    · conv_lhs => rw [get_insightsE_go]
      conv_rhs => rw [get_insights_go]
      rw [if_neg h, if_neg h]

/-- Over an infallible page source the fallible query_insights loop
agrees with the pure one. -/
lemma query_insightsE_go_ok {α : Type} (src : Int → Int → Page α) :
    ∀ (fuel : Nat) (p b r : Int),
      query_insightsE_go (fun o bb => .ok (src o bb)) fuel p b r =
        .ok (query_insights_go src fuel p b r) := by
  intro fuel
  induction fuel with
  | zero => intro p b r; rfl
  | succ n ih =>
    intro p b r
    by_cases hr : r > 0
    · conv_lhs => rw [query_insightsE_go]
      conv_rhs => rw [query_insights_go]
      simp only [if_pos hr]
      by_cases hn : (src p b).hasNextPage = false
      · rw [if_pos hn, if_pos hn]
      · rw [if_neg hn, if_neg hn]
        rw [ih (p + b)]
    · conv_lhs => rw [query_insightsE_go]
      conv_rhs => rw [query_insights_go]
      rw [if_neg hr, if_neg hr]

/-- Wrapper form of the agreement between the fallible and pure
get_insights. -/
lemma get_insightsE_ok {α : Type} (src : Option String → TokenPage α) (maxPages : Int) :
    get_insightsE (fun t => .ok (src t)) maxPages = .ok (get_insights src maxPages) := by
  rw [get_insightsE, get_insights, get_insightsE_go_ok src]

/-- Wrapper form of the agreement between the fallible and pure
query_insights. -/
lemma query_insightsE_ok {α : Type} (src : Int → Int → Page α) (off limit : Int) :
    query_insightsE (fun o b => .ok (src o b)) off limit =
      .ok (query_insights src off limit) := by
  rw [query_insightsE, query_insights, query_insightsE_go_ok src]

/-- The fetch counter of the get_insights loop never exceeds the fuel. -/
lemma get_insights_go_count_le {α : Type} (src : Option String → TokenPage α) :
    ∀ (fuel : Nat) (maxPages pages : Int) (tok : Option String),
      (get_insights_go src fuel maxPages pages tok).2 ≤ fuel := by
  intro fuel
  induction fuel with
  | zero => intro maxPages pages tok; exact Nat.le_refl 0
  | succ n ih =>
    intro maxPages pages tok
    by_cases h : pages < maxPages
    · simp only [get_insights_go, if_pos h]
      cases htok : (src tok).nextPageToken with
      | none => simp
      | some t =>
        simp only []
        have := ih maxPages (pages + 1) (some t)
        omega
    · simp only [get_insights_go, if_neg h]
      exact Nat.zero_le _

/-- When the page source never returns a null token, the get_insights
loop with adequate fuel makes exactly (maxPages - pages).toNat fetches. -/
lemma get_insights_go_count_exact {α : Type} (src : Option String → TokenPage α)
    (hnn : ∀ t, (src t).nextPageToken ≠ none) :
    ∀ (fuel : Nat) (maxPages pages : Int) (tok : Option String),
      (maxPages - pages).toNat ≤ fuel →
      (get_insights_go src fuel maxPages pages tok).2 = (maxPages - pages).toNat := by
  intro fuel
  induction fuel with
  | zero =>
    intro maxPages pages tok hf
    simp only [get_insights_go]
    omega
  | succ n ih =>
    intro maxPages pages tok hf
    by_cases h : pages < maxPages
    · simp only [get_insights_go, if_pos h]
      obtain ⟨t, ht⟩ : ∃ t, (src tok).nextPageToken = some t := by
        cases htok : (src tok).nextPageToken with
        | none => exact absurd htok (hnn tok)
        | some t => exact ⟨t, rfl⟩
      simp only [ht]
      have := ih maxPages (pages + 1) (some t) (by omega)
      omega
    · simp only [get_insights_go, if_neg h]
      omega

/-
The claims.
-/

/-- Claim C1: for query_insights with totalLimit 100 against a page source
that always returns exactly the requested number of records with
hasNextPage true, exactly 5 page fetches are made, each requesting batch
size 20, at offsets 0, 20, 40, 60, 80 in order, and the result is the 100
records of those five pages in fetch order. -/
theorem claim_C1 {α : Type} (src : Int → Int → Page α) (off : Int)
    (hfull : ∀ o b : Int, (src o b).objects.length = b.toNat ∧ (src o b).hasNextPage = true) :
    query_insights_calls src off 100 = [(0, 20), (20, 20), (40, 20), (60, 20), (80, 20)] ∧
    query_insights src off 100 =
      (src 0 20).objects ++ (src 20 20).objects ++ (src 40 20).objects ++
        (src 60 20).objects ++ (src 80 20).objects ∧
    (query_insights src off 100).length = 100 := by
  have h20 : ∀ o : Int, (src o 20).objects.length = 20 := fun o => by
    simpa using (hfull o 20).1
  have hnx : ∀ o : Int, (src o 20).hasNextPage = true := fun o => (hfull o 20).2
  have key : query_insights_go src 100 0 20 100 =
      ((src 0 20).objects ++ ((src 20 20).objects ++ ((src 40 20).objects ++
        ((src 60 20).objects ++ (src 80 20).objects))),
        [(0, 20), (20, 20), (40, 20), (60, 20), (80, 20)]) := by
    rw [show (100 : Nat) = 99 + 1 from rfl,
      query_insights_go_full_step src 99 0 100 (h20 0) (hnx 0) (by norm_num)]
    norm_num
    rw [show (99 : Nat) = 98 + 1 from rfl,
      query_insights_go_full_step src 98 20 80 (h20 20) (hnx 20) (by norm_num)]
    norm_num
    rw [show (98 : Nat) = 97 + 1 from rfl,
      query_insights_go_full_step src 97 40 60 (h20 40) (hnx 40) (by norm_num)]
    norm_num
    rw [show (97 : Nat) = 96 + 1 from rfl,
      query_insights_go_full_step src 96 60 40 (h20 60) (hnx 60) (by norm_num)]
    norm_num
    rw [show (96 : Nat) = 95 + 1 from rfl,
      query_insights_go_full_finish src 95 80 (h20 80) (hnx 80)]
    exact ⟨rfl, rfl⟩
  have hwrap : (if (100 : Int) > 20 then (20 : Int) else 100) = 20 := by norm_num
  refine ⟨?_, ?_, ?_⟩
  · rw [query_insights_calls, hwrap, show ((100 : Int)).toNat = 100 from rfl, key]
  · rw [query_insights, hwrap, show ((100 : Int)).toNat = 100 from rfl, key]
    simp [List.append_assoc]
  · rw [query_insights, hwrap, show ((100 : Int)).toNat = 100 from rfl, key]
    simp [h20]

/-- Witness for claim C1: the hypotheses hold for the concrete full page
source fullSrc, and the conclusions follow by the theorem. -/
theorem claim_C1_witness :
    (∀ o b : Int, (fullSrc o b).objects.length = b.toNat ∧ (fullSrc o b).hasNextPage = true) ∧
    query_insights_calls fullSrc 7 100 = [(0, 20), (20, 20), (40, 20), (60, 20), (80, 20)] ∧
    (query_insights fullSrc 7 100).length = 100 := by
  have h : ∀ o b : Int,
      (fullSrc o b).objects.length = b.toNat ∧ (fullSrc o b).hasNextPage = true :=
    fun o b => ⟨by simp only [fullSrc, List.length_map, List.length_range], rfl⟩
  exact ⟨h, (claim_C1 fullSrc 7 h).1, (claim_C1 fullSrc 7 h).2.2⟩

/-- Claim C2: in both offset-batch aggregators the offset passed to each
fetch after the first equals the previous offset plus the batch size that
was requested on the previous fetch, for every page source, offset and
limit, regardless of how many records each fetch actually returned. -/
theorem claim_C2 {α β : Type} (srcI : Int → Int → Page α) (srcR : Int → Int → Page β)
    (offI limI offR limR : Int) :
    callsChainedB (query_insights_calls srcI offI limI) = true ∧
    callsChainedB (query_rules_calls srcR offR limR) = true :=
  ⟨query_insights_go_chained srcI _ _ _ _, query_rules_go_chained srcR _ _ _ _⟩

/-- Claim C5: no fetch of query_insights or query_rules ever requests a
batch size over the server page cap of 20, for every page source, offset
and totalLimit; and with totalLimit 10 against a full page source exactly
one fetch is made, with batch size 10. -/
theorem claim_C5 {α : Type} (srcI srcR srcF : Int → Int → Page α)
    (offI limI offR limR offF : Int)
    (hfull : ∀ o b : Int, (srcF o b).objects.length = b.toNat ∧ (srcF o b).hasNextPage = true) :
    (∀ c ∈ query_insights_calls srcI offI limI, c.2 ≤ 20) ∧
    (∀ c ∈ query_rules_calls srcR offR limR, c.2 ≤ 20) ∧
    query_insights_calls srcF offF 10 = [(0, 10)] ∧
    query_rules_calls srcF offF 10 = [(0, 10)] := by
  refine ⟨?_, ?_, query_insights_run10 srcF offF hfull, query_rules_run10 srcF offF hfull⟩
  · exact fun c hc => query_insights_go_batch_le srcI _ _ _ _ (by split <;> omega) c hc
  · refine fun c hc => query_rules_go_batch_le srcR _ _ _ _ ?_ c hc
    by_cases h : limR > 20
    · rw [if_pos h]
      exact min_le_right _ _
    · rw [if_neg h]
      omega

/-- Witness for claim C5 at the concrete full page source. -/
theorem claim_C5_witness :
    (∀ o b : Int, (fullSrc o b).objects.length = b.toNat ∧ (fullSrc o b).hasNextPage = true) ∧
    query_insights_calls fullSrc 0 10 = [(0, 10)] ∧
    query_rules_calls fullSrc 0 10 = [(0, 10)] ∧
    ((0 : Int), (10 : Int)) ∈ query_insights_calls fullSrc 0 10 ∧
    ((0 : Int), (10 : Int)).2 ≤ 20 := by
  have h : ∀ o b : Int,
      (fullSrc o b).objects.length = b.toNat ∧ (fullSrc o b).hasNextPage = true :=
    fun o b => ⟨by simp only [fullSrc, List.length_map, List.length_range], rfl⟩
  have main := claim_C5 fullSrc fullSrc fullSrc 0 10 0 10 0 h
  exact ⟨h, main.2.2.1, main.2.2.2, by decide, main.1 (0, 10) (by decide)⟩

/-- Claim C10: the result of query_insights is independent of the
caller-supplied offset parameter: any two offsets give the same fetch
sequence and the same records, and the first fetch is always made at
offset 0. -/
theorem claim_C10 {α : Type} (src : Int → Int → Page α) (limit o₁ o₂ : Int) :
    query_insights src o₁ limit = query_insights src o₂ limit ∧
    query_insights_calls src o₁ limit = query_insights_calls src o₂ limit ∧
    ∀ c : Int × Int, (query_insights_calls src o₁ limit).head? = some c → c.1 = 0 := by
  refine ⟨rfl, rfl, fun c hc => ?_⟩
  rw [query_insights_calls] at hc
  rcases query_insights_go_calls_head src limit.toNat 0
      (if limit > 20 then 20 else limit) limit with h | ⟨tl, h⟩
  · rw [h] at hc
    exact absurd hc (by simp)
  · rw [h] at hc
    simp only [List.head?_cons, Option.some.injEq] at hc
    rw [← hc]

/-- Witness for claim C10 at the concrete full page source. -/
theorem claim_C10_witness :
    (query_insights_calls fullSrc 7 10).head? = some ((0 : Int), (10 : Int)) ∧
    ((0 : Int), (10 : Int)).1 = 0 :=
  ⟨by decide, (claim_C10 fullSrc 10 7 3).2.2 (0, 10) (by decide)⟩

/-- Claim C9: each short region code resolves to the regional URL, which
never ends in a slash; prod, us1 and an absent input all resolve to the
default endpoint; and any input ending in a slash makes endpoint
validation fail with ConfigurationError. -/
theorem claim_C9 :
    (∀ c ∈ (["au", "fra", "mum", "us2", "mon", "dub", "tky"] : List String),
      validate_endpoint (some c) = .ok ("https://api." ++ c ++ ".sumologic.com/api/sec") ∧
      strEndsWith ("https://api." ++ c ++ ".sumologic.com/api/sec") "/" = false) ∧
    (validate_endpoint (some "prod") = validate_endpoint none ∧
      validate_endpoint (some "us1") = validate_endpoint none ∧
      validate_endpoint none = .ok "https://api.sumologic.com/api/sec") ∧
    (∀ s : String, strEndsWith s "/" = true →
      validate_endpoint (some s) =
        .error (.configurationError "Endpoint should not end with a slash character")) := by
  refine ⟨by decide, by decide, ?_⟩
  intro s hs
  by_cases h1 : s = "au" ∨ s = "fra" ∨ s = "mum" ∨ s = "us2" ∨ s = "mon" ∨ s = "dub" ∨ s = "tky"
  · rcases h1 with rfl | rfl | rfl | rfl | rfl | rfl | rfl <;> exact absurd hs (by decide)
  · by_cases h2 : s = "prod" ∨ s = "us1"
    · rcases h2 with rfl | rfl <;> exact absurd hs (by decide)
    · simp only [validate_endpoint, if_neg h1, if_neg h2, hs, if_pos]

/-- Witness for claim C9: the code au and a concrete URL ending in a
slash. -/
theorem claim_C9_witness :
    ("au" ∈ (["au", "fra", "mum", "us2", "mon", "dub", "tky"] : List String) ∧
      validate_endpoint (some "au") = .ok "https://api.au.sumologic.com/api/sec") ∧
    (strEndsWith "http://example.com/" "/" = true ∧
      validate_endpoint (some "http://example.com/") =
        .error (.configurationError "Endpoint should not end with a slash character")) := by
  refine ⟨⟨by decide, ?_⟩, by decide, ?_⟩
  · exact (claim_C9.1 "au" (by decide)).1
  · exact claim_C9.2.2 "http://example.com/" (by decide)

/-- Counterexample to claim C7 as stated: a response with status 500 and
the valid JSON body null does not raise APIError — the membership test
`"message" in None` raises TypeError, which neither except clause of
_handle_response catches, so the TypeError escapes to the caller. -/
theorem claim_C7_counterexample :
    handle_response demoParse ⟨500, "null"⟩ "GET /insights" = .error .typeError ∧
    ¬ ∃ msg, handle_response demoParse ⟨500, "null"⟩ "GET /insights" =
      .error (.cse (.apiError msg (some 500) (some "null"))) := by
  refine ⟨rfl, fun ⟨msg, h⟩ => ?_⟩
  rw [show handle_response demoParse ⟨500, "null"⟩ "GET /insights" = .error .typeError
    from rfl] at h
  exact PyError.noConfusion (Except.error.inj h)

/-- Claim C7, amended: a 401 response makes response handling raise
AuthenticationError, never APIError, whatever operation issued the
request, and a 403 raises APIError with status code and raw body; every
other status in the interval from 400 inclusive to 600 exclusive raises
APIError carrying the status code and the raw body when the body is
empty or not valid JSON, and likewise when the body parses to a JSON
object; but when the body of such a non-403 response parses to the JSON
value null, the message probing raises TypeError, which escapes
_handle_response uncaught instead of an APIError. -/
theorem claim_C7 (jparse : String → Option Json) (method : String) (r : HttpResponse) :
    (r.status = 401 →
      handle_response jparse r method =
        .error (.cse (.authenticationError
          "Authentication failed. Check your access ID and key."))) ∧
    (r.status = 403 →
      handle_response jparse r method =
        .error (.cse (.apiError "Access denied. Check your permissions."
          (some r.status) (some r.text)))) ∧
    (400 ≤ r.status → r.status < 600 → r.status ≠ 401 → jparse r.text = none →
      ∃ msg, handle_response jparse r method =
        .error (.cse (.apiError msg (some r.status) (some r.text)))) ∧
    (400 ≤ r.status → r.status < 600 → r.status ≠ 401 →
      ∀ fields, jparse r.text = some (Json.obj fields) →
        ∃ msg, handle_response jparse r method =
          .error (.cse (.apiError msg (some r.status) (some r.text)))) ∧
    (400 ≤ r.status → r.status < 600 → r.status ≠ 401 → r.status ≠ 403 →
      jparse r.text = some Json.null →
      handle_response jparse r method = .error .typeError) := by
  refine ⟨?_, ?_, ?_, ?_, ?_⟩
  · intro h
    simp [handle_response, h]
  · intro h3
    have hne : ¬ r.status = 401 := by omega
    unfold handle_response
    rw [if_neg hne, if_pos h3]
  · intro h4 h6 hne hparse
    unfold handle_response
    rw [if_neg hne]
    by_cases h3 : r.status = 403
    · rw [if_pos h3]
      exact ⟨_, rfl⟩
    · rw [if_neg h3, if_pos ⟨h4, h6⟩]
      simp only [hparse]
      exact ⟨_, rfl⟩
  · intro h4 h6 hne fields hparse
    unfold handle_response
    rw [if_neg hne]
    by_cases h3 : r.status = 403
    · rw [if_pos h3]
      exact ⟨_, rfl⟩
    · rw [if_neg h3, if_pos ⟨h4, h6⟩]
      simp only [hparse]
      cases hm : fields.lookup "message" with
      | some v =>
        simp only [error_msg_probe, hm]
        exact ⟨_, rfl⟩
      | none =>
        cases he : fields.lookup "error" with
        | some v =>
          simp only [error_msg_probe, hm, he]
          exact ⟨_, rfl⟩
        | none =>
          simp only [error_msg_probe, hm, he]
          exact ⟨_, rfl⟩
  · intro h4 h6 hne h403 hparse
    unfold handle_response
    rw [if_neg hne, if_neg h403, if_pos ⟨h4, h6⟩]
    simp only [hparse]
    rfl

/-- Witness for claim C7 at concrete responses: a 401, a 403, a 500 with
unparseable body, a 500 with a JSON object body, and a 500 with the body
null. -/
theorem claim_C7_witness :
    ((⟨401, ""⟩ : HttpResponse).status = 401 ∧
      handle_response demoParse ⟨401, ""⟩ "GET /insights" =
        .error (.cse (.authenticationError
          "Authentication failed. Check your access ID and key."))) ∧
    ((⟨403, "no"⟩ : HttpResponse).status = 403 ∧
      handle_response demoParse ⟨403, "no"⟩ "GET /insights" =
        .error (.cse (.apiError "Access denied. Check your permissions."
          (some 403) (some "no")))) ∧
    (demoParse "oops" = none ∧
      ∃ msg, handle_response demoParse ⟨500, "oops"⟩ "GET /insights" =
        .error (.cse (.apiError msg (some 500) (some "oops")))) ∧
    (demoParse "\x7b\x22message\x22:\x22denied\x22\x7d" =
        some (Json.obj [("message", Json.str "denied")]) ∧
      ∃ msg, handle_response demoParse
          ⟨500, "\x7b\x22message\x22:\x22denied\x22\x7d"⟩ "GET /insights" =
        .error (.cse (.apiError msg (some 500)
          (some "\x7b\x22message\x22:\x22denied\x22\x7d")))) ∧
    (demoParse "null" = some Json.null ∧
      handle_response demoParse ⟨500, "null"⟩ "GET /insights" = .error .typeError) :=
  ⟨⟨rfl, (claim_C7 demoParse "GET /insights" ⟨401, ""⟩).1 rfl⟩,
    ⟨rfl, (claim_C7 demoParse "GET /insights" ⟨403, "no"⟩).2.1 rfl⟩,
    ⟨rfl, (claim_C7 demoParse "GET /insights" ⟨500, "oops"⟩).2.2.1
      (by norm_num) (by norm_num) (by norm_num) rfl⟩,
    ⟨rfl, (claim_C7 demoParse "GET /insights"
        ⟨500, "\x7b\x22message\x22:\x22denied\x22\x7d"⟩).2.2.2.1
      (by norm_num) (by norm_num) (by norm_num) [("message", Json.str "denied")] rfl⟩,
    ⟨rfl, (claim_C7 demoParse "GET /insights" ⟨500, "null"⟩).2.2.2.2
      (by norm_num) (by norm_num) (by norm_num) (by norm_num) rfl⟩⟩

/-- The response handler passes any response whose status is outside the
error interval through unchanged. -/
lemma handle_response_success (jparse : String → Option Json) (method : String)
    (r : HttpResponse) (hstat : ¬ (400 ≤ r.status ∧ r.status < 600)) :
    handle_response jparse r method = .ok r := by
  have h1 : ¬ r.status = 401 := fun h => hstat (by rw [h]; exact ⟨by norm_num, by norm_num⟩)
  have h3 : ¬ r.status = 403 := fun h => hstat (by rw [h]; exact ⟨by norm_num, by norm_num⟩)
  simp only [handle_response, if_neg h1, if_neg h3, if_neg hstat]

/-- Claim C8, amended: for every successful response, the methods that
parse through _safe_json_parse (here get_insights_all) return the empty
mapping on an empty body, the parsed JSON on a body that parses, and
DataError on a non-empty body that does not parse; but get_insights_list,
get_rules and get_insight parse with a bare json.loads, so on a body that
does not parse — including the empty body — they let the raw
JSONDecodeError escape instead of returning an empty mapping or raising
DataError. -/
theorem claim_C8 (jparse : String → Option Json) (r : HttpResponse)
    (hstat : ¬ (400 ≤ r.status ∧ r.status < 600)) :
    (r.text = "" → get_insights_all_result jparse r = .ok (Json.obj [])) ∧
    (r.text ≠ "" → ∀ d, jparse r.text = some d →
      get_insights_all_result jparse r = .ok d) ∧
    (r.text ≠ "" → jparse r.text = none →
      get_insights_all_result jparse r =
        .error (.cse (.dataError "Invalid JSON response from API"))) ∧
    (∀ d, jparse r.text = some d →
      get_insights_list_result jparse r = .ok d ∧
      get_rules_result jparse r = .ok d ∧
      ∀ iid, get_insight_result jparse iid r = .ok d) ∧
    (jparse r.text = none →
      get_insights_list_result jparse r = .error .jsonDecodeError ∧
      get_rules_result jparse r = .error .jsonDecodeError ∧
      ∀ iid, get_insight_result jparse iid r = .error .jsonDecodeError) := by
  refine ⟨?_, ?_, ?_, ?_, ?_⟩
  · intro he
    simp [get_insights_all_result, handle_response_success jparse _ r hstat,
      safe_json_parse, he]
  · intro hne d hd
    simp [get_insights_all_result, handle_response_success jparse _ r hstat,
      safe_json_parse, hne, hd]
  · intro hne hd
    simp [get_insights_all_result, handle_response_success jparse _ r hstat,
      safe_json_parse, hne, hd]
  · intro d hd
    refine ⟨?_, ?_, fun iid => ?_⟩ <;>
      simp [get_insights_list_result, get_rules_result, get_insight_result,
        handle_response_success jparse _ r hstat, json_loads, hd]
  · intro hd
    refine ⟨?_, ?_, fun iid => ?_⟩ <;>
      simp [get_insights_list_result, get_rules_result, get_insight_result,
        handle_response_success jparse _ r hstat, json_loads, hd]

/-- Witness for claim C8 at a concrete successful response with empty
body. -/
theorem claim_C8_witness :
    ¬ (400 ≤ (200 : Int) ∧ (200 : Int) < 600) ∧
    get_insights_all_result demoParse ⟨200, ""⟩ = .ok (Json.obj []) ∧
    get_insights_list_result demoParse ⟨200, ""⟩ = .error .jsonDecodeError := by
  have hstat : ¬ (400 ≤ (⟨200, ""⟩ : HttpResponse).status ∧
      (⟨200, ""⟩ : HttpResponse).status < 600) := by norm_num
  exact ⟨hstat, (claim_C8 demoParse ⟨200, ""⟩ hstat).1 rfl,
    ((claim_C8 demoParse ⟨200, ""⟩ hstat).2.2.2.2 rfl).1⟩

/-- Counterexample to claim C8 as stated: on a successful response with
an empty body, get_insights_list does not return an empty mapping, and on
a non-empty body that is not valid JSON, get_rules raises the bare
JSONDecodeError, not DataError. -/
theorem claim_C8_counterexample :
    get_insights_list_result demoParse ⟨200, ""⟩ = .error .jsonDecodeError ∧
    get_insights_list_result demoParse ⟨200, ""⟩ ≠ .ok (Json.obj []) ∧
    get_rules_result demoParse ⟨200, "not json"⟩ = .error .jsonDecodeError ∧
    get_rules_result demoParse ⟨200, "not json"⟩ ≠
      .error (.cse (.dataError "Invalid JSON response from API")) ∧
    get_insight_result demoParse "42" ⟨200, ""⟩ = .error .jsonDecodeError := by
  refine ⟨rfl, fun h => ?_, rfl, fun h => ?_, rfl⟩
  · rw [show get_insights_list_result demoParse ⟨200, ""⟩ = .error .jsonDecodeError
      from rfl] at h
    exact Except.noConfusion h
  · rw [show get_rules_result demoParse ⟨200, "not json"⟩ = .error .jsonDecodeError
      from rfl] at h
    exact PyError.noConfusion (Except.error.inj h)

/-- Claim C3: against a page source whose successive responses carry the
next-page tokens A, B, null with N records each, get_insights with any
maxPages above 3 makes exactly 3 fetches, returns the 3N records in fetch
order, and stops because of the null token rather than the page cap. -/
theorem claim_C3 {α : Type} (src : Option String → TokenPage α) (N : Nat) (maxPages : Int)
    (hmax : 3 < maxPages)
    (h0 : (src none).nextPageToken = some "A")
    (hA : (src (some "A")).nextPageToken = some "B")
    (hB : (src (some "B")).nextPageToken = none)
    (l0 : (src none).objects.length = N)
    (lA : (src (some "A")).objects.length = N)
    (lB : (src (some "B")).objects.length = N) :
    get_insights_fetches src maxPages = 3 ∧
    get_insights src maxPages =
      (src none).objects ++ (src (some "A")).objects ++ (src (some "B")).objects ∧
    (get_insights src maxPages).length = 3 * N := by
  have c0 : (0 : Int) < maxPages := by omega
  obtain ⟨k, hk⟩ : ∃ k : Nat, maxPages.toNat = k + 1 + 1 + 1 + 1 :=
    ⟨maxPages.toNat - 4, by omega⟩
  have key : get_insights_go src maxPages.toNat maxPages 0 none =
      ((src none).objects ++ ((src (some "A")).objects ++ (src (some "B")).objects), 3) := by
    rw [hk]
    rw [get_insights_go, if_pos c0]
    simp only [h0]
    rw [get_insights_go, if_pos (by omega : (0 : Int) + 1 < maxPages)]
    simp only [hA]
    rw [get_insights_go, if_pos (by omega : (0 : Int) + 1 + 1 < maxPages)]
    simp only [hB]
  rw [get_insights_fetches, get_insights, key]
  refine ⟨rfl, by simp [List.append_assoc], ?_⟩
  simp [List.length_append, l0, lA, lB]
  ring

/-- Witness for claim C3 at the concrete three-page token source. -/
theorem claim_C3_witness :
    (3 : Int) < 5 ∧
    (tokSrc3 none).nextPageToken = some "A" ∧
    (tokSrc3 (some "A")).nextPageToken = some "B" ∧
    (tokSrc3 (some "B")).nextPageToken = none ∧
    get_insights_fetches tokSrc3 5 = 3 ∧
    get_insights tokSrc3 5 = [1, 2, 3, 4, 5, 6] := by
  have h := claim_C3 tokSrc3 2 5 (by norm_num) rfl rfl rfl rfl rfl rfl
  exact ⟨by norm_num, rfl, rfl, rfl, h.1, by rw [h.2.1]; rfl⟩

/-- Claim C4: get_insights always makes at most maxPages fetches, and
against a page source that never returns a null token — even one whose
pages carry zero records — it makes exactly maxPages fetches (maxPages
clamped at zero from below, as a negative cap admits no iteration). -/
theorem claim_C4 {α : Type} (src : Option String → TokenPage α) (maxPages : Int) :
    get_insights_fetches src maxPages ≤ maxPages.toNat ∧
    ((∀ t, (src t).nextPageToken ≠ none) →
      get_insights_fetches src maxPages = maxPages.toNat) := by
  constructor
  · exact get_insights_go_count_le src maxPages.toNat maxPages 0 none
  · intro hnn
    have := get_insights_go_count_exact src hnn maxPages.toNat maxPages 0 none (by omega)
    simpa using this

/-- Witness for claim C4 at the concrete source that never returns a null
token and returns zero records per page. -/
theorem claim_C4_witness :
    (∀ t, (neverNullSrc t).nextPageToken ≠ none) ∧
    get_insights_fetches neverNullSrc 5 ≤ 5 ∧
    get_insights_fetches neverNullSrc 5 = 5 := by
  have hnn : ∀ t, (neverNullSrc t).nextPageToken ≠ none := fun t h => Option.noConfusion h
  have h := claim_C4 neverNullSrc 5
  exact ⟨hnn, h.1, h.2 hnn⟩

/-- Claim C6: when a page fetch of either aggregator fails — here the
second fetch, with an arbitrary library error such as an APIError with
status 500 — the whole aggregation call evaluates to that error: the
records accumulated from the first page are discarded, and no handler
inside the loop intercepts the error. -/
theorem claim_C6 {α : Type} (srcT : Option String → Except CseError (TokenPage α))
    (srcO : Int → Int → Except CseError (Page α)) (e : CseError)
    (maxPages off limit : Int) (p1 : TokenPage α) (tk : String) (q1 : Page α)
    (hm : 2 ≤ maxPages)
    (h1 : srcT none = .ok p1) (ht : p1.nextPageToken = some tk)
    (h2 : srcT (some tk) = .error e)
    (g1 : srcO 0 (if limit > 20 then 20 else limit) = .ok q1)
    (hnx : q1.hasNextPage = true)
    (hlen : 0 < q1.objects.length)
    (hrem : (q1.objects.length : Int) < limit)
    (gfail : ∀ o b : Int, o ≠ 0 → srcO o b = .error e) :
    get_insightsE srcT maxPages = .error e ∧
    query_insightsE srcO off limit = .error e := by
  constructor
  · obtain ⟨k, hk⟩ : ∃ k : Nat, maxPages.toNat = k + 1 + 1 :=
      ⟨maxPages.toNat - 2, by omega⟩
    rw [get_insightsE, hk]
    rw [get_insightsE_go, if_pos (by omega : (0 : Int) < maxPages)]
    simp only [h1, ht]
    rw [get_insightsE_go, if_pos (by omega : (0 : Int) + 1 < maxPages)]
    simp only [h2]
  · obtain ⟨k, hk⟩ : ∃ k : Nat, limit.toNat = k + 1 + 1 :=
      ⟨limit.toNat - 2, by omega⟩
    have hb0 : (0 : Int) + (if limit > 20 then (20 : Int) else limit) ≠ 0 := by
      split <;> omega
    rw [query_insightsE, hk]
    rw [query_insightsE_go, if_pos (by omega : limit > 0)]
    simp only [g1, hnx, if_pos hlen]
    rw [query_insightsE_go,
      if_pos (by omega : limit - (q1.objects.length : Int) > 0)]
    rw [gfail _ _ hb0]
    simp

/-- Witness for claim C6 at concrete fallible sources whose second fetch
raises an APIError with status 500. -/
theorem claim_C6_witness :
    failTokSrc none = .ok ⟨[1, 2], some "A"⟩ ∧
    failTokSrc (some "A") = .error err500 ∧
    failOffSrc 0 (if (10 : Int) > 20 then 20 else 10) = .ok ⟨[1], true⟩ ∧
    (∀ o b : Int, o ≠ 0 → failOffSrc o b = .error err500) ∧
    get_insightsE failTokSrc 5 = .error err500 ∧
    query_insightsE failOffSrc 0 10 = .error err500 := by
  have gfail : ∀ o b : Int, o ≠ 0 → failOffSrc o b = .error err500 := by
    intro o b ho
    simp [failOffSrc, ho]
  have h := claim_C6 failTokSrc failOffSrc err500 5 0 10 ⟨[1, 2], some "A"⟩ "A" ⟨[1], true⟩
    (by norm_num) rfl rfl rfl rfl rfl (by decide) (by decide) gfail
  exact ⟨rfl, rfl, rfl, gfail, h.1, h.2⟩

end SumoCSE
